import Mathlib

/-!
Verification development for the PTY session bridge of `codex-run`
(`src/commands/codex-run.pty.ts`).

Text is modelled as `List Char` (named `Str` below); JavaScript string
operations become structurally recursive Lean functions. Regular-expression
tests from the source are embedded as continuation-passing matchers with
existential (search-anywhere) semantics, translated pattern by pattern from
the source literals. The stateful session bridge becomes an explicit state
record (`BridgeState`) with pure transition functions mirroring the closures
of `runPtyCodexSession`.
-/

namespace CodexRunPty

/-- Strings are modelled as lists of characters. -/
abbrev Str := List Char

/-- Converts a Lean string literal to the `Str` model. -/
def ofStr (s : String) : Str := s.data

/-- Whitespace class of JavaScript regular expressions (`\s`) and of
`String.prototype.trim`: ASCII whitespace plus the Unicode space
characters and the BOM. -/
def isJsWs (c : Char) : Bool :=
  let n := c.toNat
  n = 9 || n = 10 || n = 11 || n = 12 || n = 13 || n = 32 ||
  n = 0xA0 || n = 0x1680 || (0x2000 ≤ n && n ≤ 0x200A) ||
  n = 0x2028 || n = 0x2029 || n = 0x202F || n = 0x205F || n = 0x3000 || n = 0xFEFF

/-- Word character class of JavaScript regular expressions (`\w`, used by
the `\b` boundary assertion): letters, digits and underscore. -/
def isWordChar (c : Char) : Bool :=
  let n := c.toNat
  (97 ≤ n && n ≤ 122) || (65 ≤ n && n ≤ 90) || (48 ≤ n && n ≤ 57) || n = 95

/-- ASCII lowercasing of one character, modelling
`String.prototype.toLowerCase` on the character range the bridge handles. -/
def lowerChar (c : Char) : Char :=
  if 65 ≤ c.toNat && c.toNat ≤ 90 then Char.ofNat (c.toNat + 32) else c

/-- Lowercases a whole string. -/
def toLowerStr (l : Str) : Str := l.map lowerChar

/-- Drops the parameter, intermediate and final bytes of a CSI escape
sequence, given the characters after `ESC [`. -/
def dropCsi : Str → Str
  | [] => []
  | c :: rest =>
    if 0x20 ≤ c.toNat && c.toNat ≤ 0x3F then dropCsi rest
    else if 0x40 ≤ c.toNat && c.toNat ≤ 0x7E then rest
    else c :: rest

/-- Fuelled scanner behind `stripAnsi`. -/
def stripAnsiFuel : Nat → Str → Str
  | 0, l => l
  | _ + 1, [] => []
  | fuel + 1, c :: rest =>
    if c.toNat = 27 then
      match rest with
      | '[' :: r2 => stripAnsiFuel fuel (dropCsi r2)
      | _ :: r2 => stripAnsiFuel fuel r2
      | [] => []
    else c :: stripAnsiFuel fuel rest

/-- Modelled from the spec: `stripAnsi` (imported from `../terminal/ansi.js`,
whose source is not part of this repository snapshot) strips terminal
control sequences: an ESC introducing a CSI sequence removes the sequence
through its final byte, any other ESC removes itself and the following
character, and every other character is kept. -/
def stripAnsi (l : Str) : Str := stripAnsiFuel l.length l

/-- Embeds `normalizeForPromptDetection`: strip ANSI control sequences, then
replace every carriage return with a newline. -/
def normalizeForPromptDetection (l : Str) : Str :=
  (stripAnsi l).map (fun c => if c = '\r' then '\n' else c)

/-- Splits a string at newline characters, JavaScript `split("\n")`
semantics: the empty string yields one empty field. -/
def splitNl : Str → List Str
  | [] => [[]]
  | c :: rest =>
    if c = '\n' then [] :: splitNl rest
    else
      match splitNl rest with
      | [] => [[c]]
      | l :: ls => (c :: l) :: ls

/-- JavaScript `String.prototype.trim`: removes leading and trailing
whitespace. -/
def jsTrim (l : Str) : Str :=
  ((l.dropWhile isJsWs).reverse.dropWhile isJsWs).reverse

/-- Last `n` elements of a list, JavaScript `slice(-n)` semantics for
positive `n`. -/
def lastN (n : Nat) (l : List Str) : List Str := l.drop (l.length - n)

/-- Joins a list of strings with single spaces, JavaScript `join(" ")`. -/
def joinSpace : List Str → Str
  | [] => []
  | [x] => x
  | x :: y :: t => x ++ ' ' :: joinSpace (y :: t)

/-- Last `n` characters of a string, JavaScript `slice(-n)` for positive
`n`: the whole string when it is shorter than `n`. -/
def sliceLast (n : Nat) (l : Str) : Str := l.drop (l.length - n)

/-! ### Regular-expression matchers

Continuation-passing matchers over `Str`. A matcher consumes some prefix of
its input and calls the continuation on the rest; overall success is the
existence of a successful parse, matching JavaScript `RegExp.prototype.test`
semantics. Inputs are lowercased before matching to model the `i` flag. -/

/-- Matches a literal string, then continues. -/
def litM : Str → Str → (Str → Bool) → Bool
  | [], l, k => k l
  | _ :: _, [], _ => false
  | p :: ps, c :: cs, k => p == c && litM ps cs k

/-- Matches zero or more characters satisfying `cond` (regex `x*`), trying
the continuation at every split. -/
def starM (cond : Char → Bool) : Str → (Str → Bool) → Bool
  | [], k => k []
  | c :: cs, k => k (c :: cs) || (cond c && starM cond cs k)

/-- Matches one or more characters satisfying `cond` (regex `x+`). -/
def plusM (cond : Char → Bool) : Str → (Str → Bool) → Bool
  | [], _ => false
  | c :: cs, k => cond c && starM cond cs k

/-- Matches at most `n` characters satisfying `cond` (regex `x{0,n}`). -/
def uptoM (n : Nat) (cond : Char → Bool) : Str → (Str → Bool) → Bool
  | [], k => k []
  | c :: cs, k => k (c :: cs) || (n != 0 && cond c && uptoM (n - 1) cond cs k)

/-- Tries a matcher at every start position (unanchored regex search). -/
def existsAt (m : Str → Bool) : Str → Bool
  | [] => m []
  | c :: t => m (c :: t) || existsAt m t

/-- Tries a matcher at every start position while tracking whether the
previous character is a word character, for patterns with a leading `\b`. -/
def existsAtPrev (m : Bool → Str → Bool) : Bool → Str → Bool
  | prevW, [] => m prevW []
  | prevW, c :: t => m prevW (c :: t) || existsAtPrev m (isWordChar c) t

/-- Word-boundary continuation (`\b` after a word character): succeeds at
end of input or before a non-word character. -/
def boundaryK : Str → Bool
  | [] => true
  | c :: _ => !isWordChar c

/-- Continuation for `\s*$`: only whitespace up to the end of input. -/
def tailWsEnd (l : Str) : Bool :=
  starM isJsWs l (fun r => r.isEmpty)

/-- Matches `press\s+(enter|return)\s+to\s+continue\b` at the current
position. -/
def pressEnterAt (l : Str) : Bool :=
  litM (ofStr "press") l (fun r1 =>
    plusM isJsWs r1 (fun r2 =>
      (litM (ofStr "enter") r2 (fun r3 => pressEnterRest r3) ||
       litM (ofStr "return") r2 (fun r3 => pressEnterRest r3))))
where
  pressEnterRest (r3 : Str) : Bool :=
    plusM isJsWs r3 (fun r4 =>
      litM (ofStr "to") r4 (fun r5 =>
        plusM isJsWs r5 (fun r6 =>
          litM (ofStr "continue") r6 boundaryK)))

/-- Embeds the test of `/press\s+(enter|return)\s+to\s+continue\b/i`. -/
def pressEnterTest (l : Str) : Bool :=
  existsAt pressEnterAt (toLowerStr l)

/-- Matches one of the confirmation verbs
`proceed|continue|approve|confirm|are you sure|allow|execute` at the
current position, then continues. -/
def verbM (l : Str) (k : Str → Bool) : Bool :=
  litM (ofStr "proceed") l k || litM (ofStr "continue") l k ||
  litM (ofStr "approve") l k || litM (ofStr "confirm") l k ||
  litM (ofStr "are you sure") l k || litM (ofStr "allow") l k ||
  litM (ofStr "execute") l k

/-- Character class of the JavaScript regex dot (no `s` flag): any
character except the LineTerminators `\n`, `\r`, U+2028 and U+2029. -/
def isRegexDot (c : Char) : Bool :=
  c != '\n' && c != '\r' && c.toNat != 0x2028 && c.toNat != 0x2029

/-- Matches `\(.*y\/n.*\)` at the current position (the dot of the source
regex matches no LineTerminator), then accepts. -/
def parenYnAt (l : Str) : Bool :=
  litM (ofStr "(") l (fun a =>
    starM isRegexDot a (fun b =>
      litM (ofStr "y/n") b (fun c2 =>
        starM isRegexDot c2 (fun d =>
          litM (ofStr ")") d (fun _ => true)))))

/-- Matches `\[.*y\/n.*\]` at the current position, then accepts. -/
def bracketYnAt (l : Str) : Bool :=
  litM (ofStr "[") l (fun a =>
    starM isRegexDot a (fun b =>
      litM (ofStr "y/n") b (fun c2 =>
        starM isRegexDot c2 (fun d =>
          litM (ofStr "]") d (fun _ => true)))))

/-- Matches a confirmation verb, then at most 120 characters that are
neither a period nor a newline, then a parenthesised or square-bracketed
`y/n` indicator. -/
def confirmBracketAt (l : Str) : Bool :=
  verbM l (fun r =>
    uptoM 120 (fun c => c != '.' && c != '\n') r (fun r2 =>
      parenYnAt r2 || bracketYnAt r2))

/-- Embeds the test of
`/(proceed|continue|approve|confirm|are you sure|allow|execute)[^.\n]{0,120}(\(.*y\/n.*\)|\[.*y\/n.*\])/i`. -/
def confirmBracketTest (l : Str) : Bool :=
  existsAt confirmBracketAt (toLowerStr l)

/-- Matches a confirmation verb, optional whitespace, an optional question
mark or colon, optional whitespace, then the end of the input. -/
def confirmTrailAt (l : Str) : Bool :=
  verbM l (fun r =>
    starM isJsWs r (fun r2 =>
      tailWsEnd r2 ||
      (match r2 with
       | c :: cs => (c == '?' || c == ':') && tailWsEnd cs
       | [] => false)))

/-- Embeds the test of
`/(proceed|continue|approve|confirm|are you sure|allow|execute)\s*[?:]?\s*$/i`. -/
def confirmTrailTest (l : Str) : Bool :=
  existsAt confirmTrailAt (toLowerStr l)

/-- Matches `choice\s*[:>]` then `\s*$`. -/
def choiceColonAt (l : Str) : Bool :=
  litM (ofStr "choice") l (fun r =>
    starM isJsWs r (fun r2 =>
      match r2 with
      | c :: cs => (c == ':' || c == '>') && tailWsEnd cs
      | [] => false))

/-- Matches the optional `( an?)?` group of the choice pattern, then
continues. -/
def optAnM (l : Str) (k : Str → Bool) : Bool :=
  k l || litM (ofStr " an") l k || litM (ofStr " a") l k

/-- Matches
`(enter choice|select( an?)? option|choose( an?)? option|choice\s*[:>])\s*$`
at the current position. -/
def choiceAt (l : Str) : Bool :=
  litM (ofStr "enter choice") l tailWsEnd ||
  litM (ofStr "select") l (fun r => optAnM r (fun r2 =>
    litM (ofStr " option") r2 tailWsEnd)) ||
  litM (ofStr "choose") l (fun r => optAnM r (fun r2 =>
    litM (ofStr " option") r2 tailWsEnd)) ||
  choiceColonAt l

/-- Embeds the test of
`/(enter choice|select( an?)? option|choose( an?)? option|choice\s*[:>])\s*$/i`. -/
def choiceTest (l : Str) : Bool :=
  existsAt choiceAt (toLowerStr l)

/-- High-risk alternatives of `HIGH_RISK_CONFIRM_PATTERN`, each followed by
a word boundary (the internal `\b` of alternatives such as `rm\b`
coincides with the trailing group boundary). -/
def highRiskAltsAt (l : Str) : Bool :=
  litM (ofStr "rm") l boundaryK || litM (ofStr "rm -rf") l boundaryK ||
  litM (ofStr "delete") l boundaryK || litM (ofStr "drop") l boundaryK ||
  litM (ofStr "destroy") l boundaryK || litM (ofStr "erase") l boundaryK ||
  litM (ofStr "wipe") l boundaryK || litM (ofStr "truncate") l boundaryK ||
  litM (ofStr "reset") l boundaryK || litM (ofStr "revert") l boundaryK ||
  litM (ofStr "force") l boundaryK || litM (ofStr "overwrite") l boundaryK ||
  litM (ofStr "production") l boundaryK || litM (ofStr "prod") l boundaryK ||
  litM (ofStr "database") l boundaryK || litM (ofStr "db") l boundaryK ||
  litM (ofStr "schema") l boundaryK || litM (ofStr "migration") l boundaryK ||
  litM (ofStr "credential") l boundaryK || litM (ofStr "secret") l boundaryK ||
  litM (ofStr "token") l boundaryK || litM (ofStr "key") l boundaryK ||
  litM (ofStr "sudo") l boundaryK || litM (ofStr "root") l boundaryK ||
  litM (ofStr "git reset --hard") l boundaryK ||
  litM (ofStr "git push --force") l boundaryK

/-- Embeds the test of `HIGH_RISK_CONFIRM_PATTERN`: a leading word
boundary (every alternative starts with a word character, so the
preceding character must not be one), one of the destructive-term
alternatives, and a trailing word boundary. -/
def highRiskConfirmTest (l : Str) : Bool :=
  existsAtPrev (fun prevW r => !prevW && highRiskAltsAt r) false (toLowerStr l)

/-! ### Prompt classifier and auto-answer policy -/

/-- Embeds the `kind` field of `PromptMatch`:
`"press-enter" | "confirm" | "choice"`. -/
inductive PromptKind where
  | pressEnter
  | confirm
  | choice
deriving DecidableEq, Repr

/-- Embeds the string value of a prompt kind. -/
def PromptKind.toStr : PromptKind → Str
  | .pressEnter => ofStr "press-enter"
  | .confirm => ofStr "confirm"
  | .choice => ofStr "choice"

/-- Embeds `PromptMatch`. -/
structure PromptMatch where
  kind : PromptKind
  text : Str
  safeAutoResponse : Option Str
deriving DecidableEq, Repr

/-- Embeds the `source` field of `PromptEvent`: `"auto" | "manual"`. -/
inductive PromptSource where
  | auto
  | manual
deriving DecidableEq, Repr

/-- Embeds `PromptEvent`. -/
structure PromptEvent where
  kind : PromptKind
  text : Str
  source : PromptSource
  response : Str
  atMs : Nat
deriving DecidableEq, Repr

/-- Embeds `CodexRunAutoAnswerMode`: `"off" | "safe" | "balanced" | "yolo"`. -/
inductive CodexRunAutoAnswerMode where
  | off
  | safe
  | balanced
  | yolo
deriving DecidableEq, Repr

/-- Embeds `MAX_TRANSCRIPT_CHARS`. -/
def MAX_TRANSCRIPT_CHARS : Nat := 600000

/-- Embeds `MAX_DETECTION_TAIL`. -/
def MAX_DETECTION_TAIL : Nat := 5000

/-- Detection lines of `detectInteractivePrompt`: normalize, split on
newlines, trim each line, drop empty lines, keep the last four. -/
def windowLines (rawTail : Str) : List Str :=
  lastN 4 (((splitNl (normalizeForPromptDetection rawTail)).map jsTrim).filter
    (fun l => !l.isEmpty))

/-- Detection window: the retained lines joined with single spaces. -/
def windowTail (rawTail : Str) : Str :=
  joinSpace (windowLines rawTail)

/-- Embeds `detectInteractivePrompt`: build the detection window and apply
the ordered pattern checks, first match winning. -/
def detectInteractivePrompt (rawTail : Str) : Option PromptMatch :=
  let recent := windowLines rawTail
  if recent.isEmpty then none
  else
    let tl := windowTail rawTail
    let text := recent.getLast?.getD tl
    if pressEnterTest tl then
      some { kind := .pressEnter, text := text, safeAutoResponse := some [] }
    else if confirmBracketTest tl || confirmTrailTest tl then
      some { kind := .confirm, text := text, safeAutoResponse := none }
    else if choiceTest tl then
      some { kind := .choice, text := text, safeAutoResponse := none }
    else
      none

/-- Embeds `resolveAutoResponse`: the (mode, prompt) decision table;
`none` means defer to the manual responder. -/
def resolveAutoResponse (mode : CodexRunAutoAnswerMode) (prompt : PromptMatch) :
    Option Str :=
  match mode with
  | .off => none
  | .safe =>
    match prompt.kind with
    | .pressEnter => some (prompt.safeAutoResponse.getD [])
    | _ => none
  | .balanced =>
    match prompt.kind with
    | .pressEnter => some (prompt.safeAutoResponse.getD [])
    | .confirm =>
      if highRiskConfirmTest prompt.text then none else some (ofStr "y")
    | .choice => none
  | .yolo =>
    match prompt.kind with
    | .pressEnter => some (prompt.safeAutoResponse.getD [])
    | .confirm => some (ofStr "y")
    | .choice => some (ofStr "1")

/-- Embeds `normalizePromptSignature`: lowercase, collapse every
whitespace run to a single space, trim. -/
def squeezeSpaces : Str → Str
  | [] => []
  | [c] => [c]
  | a :: b :: t =>
    if a = ' ' && b = ' ' then squeezeSpaces (b :: t)
    else a :: squeezeSpaces (b :: t)

/-- Embeds `normalizePromptSignature` (lowercase, `\s+` to one space,
trim), via mapping whitespace to spaces and squeezing runs. -/
def normalizePromptSignature (l : Str) : Str :=
  jsTrim (squeezeSpaces ((toLowerStr l).map (fun c => if isJsWs c then ' ' else c)))

/-- Signature string of a prompt, as built in `maybeHandlePrompt`:
`kind ++ ":" ++ normalizePromptSignature text`. -/
def signatureOf (p : PromptMatch) : Str :=
  p.kind.toStr ++ ofStr ":" ++ normalizePromptSignature p.text

/-- Embeds `ensureTrailingNewline`. -/
def ensureTrailingNewline (l : Str) : Str :=
  if l.getLast? = some '\n' then l else l ++ ['\n']

/-! ### Session bridge state machine

The closures of `runPtyCodexSession` become pure transitions on an explicit
state record. Observable side effects (stdin writes, observer emissions,
event appends, error recording, cancellation) are additionally logged in an
ordered `trace` so that ordering claims can be stated. Chunks enter the
model after `sanitizeBinaryOutput` (an external helper whose output is the
text the bridge bookkeeping receives). The auto-answer branch of the
dispatched task runs without suspension in the source, so the model folds
its completion into the dispatching step; a manual prompt keeps the task in
flight until `resolveManual` is applied. -/

/-- Modelled from the spec: the exit descriptor produced by the external
`ProcessSupervisor` (`RunExit` from `../process/supervisor/types.js`, not
part of this repository snapshot): a reason such as `exit`, `timeout`,
`signal` or `cancelled`, plus an exit code when applicable. -/
structure RunExit where
  reason : Str
  exitCode : Option Int
deriving DecidableEq, Repr

/-- Observable effects of the session bridge, in emission order. -/
inductive SessionEff where
  | stdinWrite (data : Str)
  | observerEmit (chunk : Str)
  | eventAppended (e : PromptEvent)
  | errorRecorded (msg : Str)
  | cancelRequested
deriving DecidableEq, Repr

/-- Mutable session state of `runPtyCodexSession`, as an explicit record. -/
structure BridgeState where
  transcript : Str
  detectTail : Str
  logText : Str
  suppressedOutput : Str
  suppressUserOutput : Bool
  promptHandling : Bool
  promptError : Option Str
  stdinReady : Bool
  lastPromptSignature : Str
  lastPromptAtMs : Nat
  promptEvents : List PromptEvent
  cancelled : Bool
  trace : List SessionEff
deriving DecidableEq, Repr

/-- Initial bridge state, after the supervisor spawn has made the child
input channel available. -/
def initState : BridgeState :=
  { transcript := [], detectTail := [], logText := [], suppressedOutput := []
    suppressUserOutput := false, promptHandling := false, promptError := none
    stdinReady := true, lastPromptSignature := [], lastPromptAtMs := 0
    promptEvents := [], cancelled := false, trace := [] }

/-- Embeds `flushSuppressedOutput`: forward the buffered output to the
observer as one batch and clear the buffer, or do nothing when empty. -/
def flushSuppressedOutput (st : BridgeState) : BridgeState :=
  if st.suppressedOutput.isEmpty then st
  else
    { st with trace := st.trace ++ [.observerEmit st.suppressedOutput]
              suppressedOutput := [] }

/-- Synchronous guard part of `maybeHandlePrompt`: no-op when a task is in
flight, a fatal error is recorded, or stdin is not ready; classify the
detection tail; deduplicate by signature within 2000 ms; otherwise record
the new signature and timestamp, mark the task in flight, and return the
prompt to dispatch. -/
def maybeHandlePromptCheck (st : BridgeState) (now : Nat) :
    BridgeState × Option PromptMatch :=
  if st.promptHandling || st.promptError.isSome || !st.stdinReady then (st, none)
  else
    match detectInteractivePrompt st.detectTail with
    | none => (st, none)
    | some p =>
      let sig := signatureOf p
      if sig = st.lastPromptSignature ∧ now - st.lastPromptAtMs < 2000 then (st, none)
      else
        ({ st with lastPromptSignature := sig, lastPromptAtMs := now
                   promptHandling := true }, some p)

/-- Auto-answer branch of the dispatched prompt task: write the response
with a trailing newline, reset the detection tail, append an `auto`
`PromptEvent`, and complete the task. -/
def runAutoCore (st : BridgeState) (p : PromptMatch) (response : Str) (now : Nat) :
    BridgeState :=
  let written := ensureTrailingNewline response
  let ev : PromptEvent :=
    { kind := p.kind, text := p.text, source := .auto, response := response, atMs := now }
  { st with detectTail := []
            promptEvents := st.promptEvents ++ [ev]
            trace := st.trace ++ [.stdinWrite written, .eventAppended ev]
            promptHandling := false }

/-- Error path of the dispatched prompt task (`.catch` then `.finally`):
record the fatal prompt error, request cancellation of the underlying
process, and complete the task. -/
def recordFatal (st : BridgeState) (msg : Str) : BridgeState :=
  { st with promptError := some msg
            cancelled := true
            trace := st.trace ++ [.errorRecorded msg, .cancelRequested]
            promptHandling := false }

/-- Error message thrown when the policy defers and no responder exists. -/
def noResponderMsg (text : Str) : Str :=
  ofStr "Codex requested interactive input (\"" ++ text ++
  ofStr "\") but no prompt responder is available."

/-- Dispatch of a detected, deduplicated prompt: consult the policy; on an
auto response run the auto branch; on deferral either begin suppressing
output for the manual responder or, with no responder configured, fail
fatally. -/
def dispatchPrompt (mode : CodexRunAutoAnswerMode) (hasResponder : Bool)
    (st : BridgeState) (p : PromptMatch) (now : Nat) : BridgeState :=
  match resolveAutoResponse mode p with
  | some r => runAutoCore st p r now
  | none =>
    if hasResponder then { st with suppressUserOutput := true }
    else recordFatal st (noResponderMsg p.text)

/-- Embeds `maybeHandlePrompt` as invoked from `onChunk`: guard and
classify, then dispatch. -/
def handlePromptNow (mode : CodexRunAutoAnswerMode) (hasResponder : Bool)
    (st : BridgeState) (now : Nat) : BridgeState :=
  match maybeHandlePromptCheck st now with
  | (st1, none) => st1
  | (st1, some p) => dispatchPrompt mode hasResponder st1 p now

/-- Resolution of a pending manual prompt. On responder success: write the
response with a trailing newline, reset the detection tail, append a
`manual` `PromptEvent`, then (in the `finally` block) end suppression and
flush the buffer. On responder failure: end suppression and flush, then
record the fatal error and request cancellation. Both paths complete the
in-flight task. -/
def resolveManual (st : BridgeState) (p : PromptMatch)
    (outcome : Except Str Str) (now : Nat) : BridgeState :=
  match outcome with
  | .ok response =>
    let written := ensureTrailingNewline response
    let ev : PromptEvent :=
      { kind := p.kind, text := p.text, source := .manual, response := response
        atMs := now }
    let st1 :=
      { st with detectTail := []
                promptEvents := st.promptEvents ++ [ev]
                trace := st.trace ++
                  [SessionEff.stdinWrite written, SessionEff.eventAppended ev] }
    let st2 := flushSuppressedOutput { st1 with suppressUserOutput := false }
    { st2 with promptHandling := false }
  | .error e =>
    let st1 := flushSuppressedOutput { st with suppressUserOutput := false }
    recordFatal st1 e

/-- Bookkeeping part of `onChunk`: append the chunk to the log, to the
capped transcript and (normalized) to the capped detection tail. -/
def absorbChunk (st : BridgeState) (chunk : Str) : BridgeState :=
  { st with logText := st.logText ++ chunk
            transcript := sliceLast MAX_TRANSCRIPT_CHARS (st.transcript ++ chunk)
            detectTail :=
              sliceLast MAX_DETECTION_TAIL
                (st.detectTail ++ normalizeForPromptDetection chunk) }

/-- Routing part of `onChunk`: buffer the chunk while suppression is
active, otherwise forward it to the output observer. -/
def routeChunk (st : BridgeState) (chunk : Str) : BridgeState :=
  if st.suppressUserOutput then
    { st with suppressedOutput := st.suppressedOutput ++ chunk }
  else
    { st with trace := st.trace ++ [SessionEff.observerEmit chunk] }

/-- Embeds `onChunk` for a sanitized chunk: skip empty chunks; append to
the log, the capped transcript and the capped (normalized) detection tail;
buffer the chunk while suppression is active, otherwise forward it to the
observer; then attempt prompt handling. -/
def onChunk (mode : CodexRunAutoAnswerMode) (hasResponder : Bool)
    (st : BridgeState) (chunk : Str) (now : Nat) : BridgeState :=
  if chunk.isEmpty then st
  else handlePromptNow mode hasResponder (routeChunk (absorbChunk st chunk) chunk) now

/-- Processes a list of (chunk, timestamp) pairs in arrival order. -/
def processChunks (mode : CodexRunAutoAnswerMode) (hasResponder : Bool) :
    BridgeState → List (Str × Nat) → BridgeState
  | st, [] => st
  | st, (c, t) :: rest => processChunks mode hasResponder (onChunk mode hasResponder st c t) rest

/-- Embeds `PtyCodexRunResult`. -/
structure PtyCodexRunResult where
  runId : Str
  pid : Option Nat
  exit : RunExit
  promptEvents : List PromptEvent
  transcript : Str
  pollSamples : Nat
  logFilePath : Str
deriving DecidableEq, Repr

/-- Session completion logic of `runPtyCodexSession`: once the process has
exited and any in-flight prompt task has settled, a recorded fatal prompt
error is thrown in preference to returning a result; otherwise the result
aggregates the exit descriptor and the accumulated state. -/
def finishSession (st : BridgeState) (exit : RunExit) (runId : Str)
    (pid : Option Nat) (pollSamples : Nat) (logFilePath : Str) :
    Except Str PtyCodexRunResult :=
  match st.promptError with
  | some e => .error e
  | none =>
    .ok { runId := runId, pid := pid, exit := exit
          promptEvents := st.promptEvents, transcript := st.transcript
          pollSamples := pollSamples, logFilePath := logFilePath }

/-! ### Helper lemmas -/

/-- Classification only ever attaches the empty canonical safe response
(on `press-enter`) or none at all. -/
theorem detect_safeAutoResponse (rawTail : Str) (p : PromptMatch)
    (h : detectInteractivePrompt rawTail = some p) :
    p.safeAutoResponse = none ∨ p.safeAutoResponse = some [] := by
  unfold detectInteractivePrompt at h
  by_cases he : (windowLines rawTail).isEmpty
  · simp [he] at h
  · simp only [he, if_false, Bool.false_eq_true] at h
    by_cases h1 : pressEnterTest (windowTail rawTail)
    · simp [h1] at h
      right
      rw [← h]
    · by_cases h2 : confirmBracketTest (windowTail rawTail) || confirmTrailTest (windowTail rawTail)
      · simp [h1, h2] at h
        left
        rw [← h]
      · by_cases h3 : choiceTest (windowTail rawTail)
        · simp [h1, h2, h3] at h
          left
          rw [← h]
        · simp [h1, h2, h3] at h

/-- Outcome analysis of the guarded classification step: either a no-op,
or a dispatch that records the signature and timestamp of the detected
prompt and marks the task in flight. -/
theorem maybeHandlePromptCheck_cases (st : BridgeState) (now : Nat) :
    maybeHandlePromptCheck st now = (st, none) ∨
    ∃ p, detectInteractivePrompt st.detectTail = some p ∧
      maybeHandlePromptCheck st now =
        ({ st with lastPromptSignature := signatureOf p, lastPromptAtMs := now
                   promptHandling := true }, some p) := by
  unfold maybeHandlePromptCheck
  by_cases hg : st.promptHandling || st.promptError.isSome || !st.stdinReady
  · left
    simp [hg]
  · rcases hdet : detectInteractivePrompt st.detectTail with _ | p
    · left
      simp [hg, hdet]
    · by_cases hsig : signatureOf p = st.lastPromptSignature ∧ now - st.lastPromptAtMs < 2000
      · left
        simp [hg, hdet, hsig]
      · right
        exact ⟨p, rfl, by simp [hg, hdet, hsig]⟩

/-- Dispatch never modifies the transcript. -/
theorem dispatchPrompt_transcript (mode : CodexRunAutoAnswerMode) (hasR : Bool)
    (st : BridgeState) (p : PromptMatch) (now : Nat) :
    (dispatchPrompt mode hasR st p now).transcript = st.transcript := by
  unfold dispatchPrompt runAutoCore recordFatal
  rcases resolveAutoResponse mode p with _ | r
  · by_cases h : hasR <;> simp [h]
  · simp

/-- Dispatch never modifies the suppression buffer. -/
theorem dispatchPrompt_suppressedOutput (mode : CodexRunAutoAnswerMode) (hasR : Bool)
    (st : BridgeState) (p : PromptMatch) (now : Nat) :
    (dispatchPrompt mode hasR st p now).suppressedOutput = st.suppressedOutput := by
  unfold dispatchPrompt runAutoCore recordFatal
  rcases resolveAutoResponse mode p with _ | r
  · by_cases h : hasR <;> simp [h]
  · simp

/-- Dispatch either keeps the detection tail or resets it to empty. -/
theorem dispatchPrompt_detectTail (mode : CodexRunAutoAnswerMode) (hasR : Bool)
    (st : BridgeState) (p : PromptMatch) (now : Nat) :
    (dispatchPrompt mode hasR st p now).detectTail = st.detectTail ∨
    (dispatchPrompt mode hasR st p now).detectTail = [] := by
  unfold dispatchPrompt runAutoCore recordFatal
  rcases resolveAutoResponse mode p with _ | r
  · by_cases h : hasR <;> simp [h]
  · simp

/-- Prompt handling never modifies the transcript. -/
theorem handlePromptNow_transcript (mode : CodexRunAutoAnswerMode) (hasR : Bool)
    (st : BridgeState) (now : Nat) :
    (handlePromptNow mode hasR st now).transcript = st.transcript := by
  unfold handlePromptNow
  rcases maybeHandlePromptCheck_cases st now with hc | ⟨p, _, hc⟩ <;> rw [hc]
  exact dispatchPrompt_transcript ..

/-- Prompt handling never modifies the suppression buffer. -/
theorem handlePromptNow_suppressedOutput (mode : CodexRunAutoAnswerMode) (hasR : Bool)
    (st : BridgeState) (now : Nat) :
    (handlePromptNow mode hasR st now).suppressedOutput = st.suppressedOutput := by
  unfold handlePromptNow
  rcases maybeHandlePromptCheck_cases st now with hc | ⟨p, _, hc⟩ <;> rw [hc]
  exact dispatchPrompt_suppressedOutput ..

/-- Prompt handling either keeps the detection tail or resets it. -/
theorem handlePromptNow_detectTail (mode : CodexRunAutoAnswerMode) (hasR : Bool)
    (st : BridgeState) (now : Nat) :
    (handlePromptNow mode hasR st now).detectTail = st.detectTail ∨
    (handlePromptNow mode hasR st now).detectTail = [] := by
  unfold handlePromptNow
  rcases maybeHandlePromptCheck_cases st now with hc | ⟨p, _, hc⟩ <;> rw [hc]
  · left
    rfl
  · exact dispatchPrompt_detectTail ..

/-- JavaScript `slice(-n)` yields a suffix. -/
theorem sliceLast_suffix (n : Nat) (l : Str) : sliceLast n l <:+ l :=
  List.drop_suffix _ _

/-- JavaScript `slice(-n)` yields at most `n` characters. -/
theorem sliceLast_length (n : Nat) (l : Str) : (sliceLast n l).length ≤ n := by
  simp only [sliceLast, List.length_drop]
  omega

/-- Appending the same string on the right preserves the suffix relation. -/
theorem suffix_append_right {a b : Str} (c : Str) (h : a <:+ b) :
    a ++ c <:+ b ++ c := by
  obtain ⟨t, rfl⟩ := h
  exact ⟨t, (List.append_assoc ..).symm⟩

/-- Routing preserves the transcript. -/
theorem routeChunk_transcript (st : BridgeState) (c : Str) :
    (routeChunk st c).transcript = st.transcript := by
  unfold routeChunk
  by_cases h : st.suppressUserOutput <;> simp [h]

/-- Routing preserves the detection tail. -/
theorem routeChunk_detectTail (st : BridgeState) (c : Str) :
    (routeChunk st c).detectTail = st.detectTail := by
  unfold routeChunk
  by_cases h : st.suppressUserOutput <;> simp [h]

/-- Routing appends to the suppression buffer exactly while suppression is
active. -/
theorem routeChunk_suppressedOutput (st : BridgeState) (c : Str) :
    (routeChunk st c).suppressedOutput =
      if st.suppressUserOutput then st.suppressedOutput ++ c
      else st.suppressedOutput := by
  unfold routeChunk
  by_cases h : st.suppressUserOutput <;> simp [h]

/-- Transcript field of the bookkeeping step. -/
theorem absorbChunk_transcript (st : BridgeState) (c : Str) :
    (absorbChunk st c).transcript =
      sliceLast MAX_TRANSCRIPT_CHARS (st.transcript ++ c) := by
  simp [absorbChunk]

/-- Detection-tail field of the bookkeeping step. -/
theorem absorbChunk_detectTail (st : BridgeState) (c : Str) :
    (absorbChunk st c).detectTail =
      sliceLast MAX_DETECTION_TAIL (st.detectTail ++ normalizeForPromptDetection c) := by
  simp [absorbChunk]

/-- Transcript after one chunk: unchanged for an empty chunk, else the
capped suffix of the old transcript plus the chunk. -/
theorem onChunk_transcript (mode : CodexRunAutoAnswerMode) (hasR : Bool)
    (st : BridgeState) (chunk : Str) (now : Nat) :
    (onChunk mode hasR st chunk now).transcript =
      if chunk.isEmpty then st.transcript
      else sliceLast MAX_TRANSCRIPT_CHARS (st.transcript ++ chunk) := by
  unfold onChunk
  by_cases hc : chunk.isEmpty
  · simp [hc]
  · rw [if_neg hc, if_neg hc, handlePromptNow_transcript, routeChunk_transcript,
      absorbChunk_transcript]

/-- Detection tail after one chunk: unchanged for an empty chunk, else
either the capped suffix of the old tail plus the normalized chunk, or
empty (after an answered prompt). -/
theorem onChunk_detectTail (mode : CodexRunAutoAnswerMode) (hasR : Bool)
    (st : BridgeState) (chunk : Str) (now : Nat) :
    (chunk.isEmpty = true ∧ (onChunk mode hasR st chunk now).detectTail = st.detectTail) ∨
    (chunk.isEmpty = false ∧
      ((onChunk mode hasR st chunk now).detectTail =
        sliceLast MAX_DETECTION_TAIL (st.detectTail ++ normalizeForPromptDetection chunk) ∨
       (onChunk mode hasR st chunk now).detectTail = [])) := by
  unfold onChunk
  by_cases hc : chunk.isEmpty
  · left
    simp [hc]
  · right
    refine ⟨by simp [hc], ?_⟩
    rw [if_neg hc]
    have h := handlePromptNow_detectTail mode hasR (routeChunk (absorbChunk st chunk) chunk) now
    rw [routeChunk_detectTail, absorbChunk_detectTail] at h
    exact h

/-- Suppression buffer after one chunk processed during suppression: the
chunk is appended at the end, preserving arrival order. -/
theorem onChunk_suppressedOutput (mode : CodexRunAutoAnswerMode) (hasR : Bool)
    (st : BridgeState) (chunk : Str) (now : Nat) (hs : st.suppressUserOutput = true) :
    (onChunk mode hasR st chunk now).suppressedOutput =
      st.suppressedOutput ++ chunk := by
  unfold onChunk
  by_cases hc : chunk.isEmpty
  · have : chunk = [] := by simpa using hc
    simp [hc, this]
  · rw [if_neg hc, handlePromptNow_suppressedOutput, routeChunk_suppressedOutput]
    simp [absorbChunk, hs]

/-- Accumulation invariant: starting from any state whose transcript is a
suffix of the output so far and whose detection tail is a suffix of the
normalized output so far, processing more chunks preserves both, with the
outputs extended accordingly. -/
theorem processChunks_suffix_aux (mode : CodexRunAutoAnswerMode) (hasR : Bool) :
    ∀ (chunks : List (Str × Nat)) (st : BridgeState) (A NA : Str),
      st.transcript <:+ A → st.detectTail <:+ NA →
      (processChunks mode hasR st chunks).transcript <:+
        A ++ (chunks.map Prod.fst).flatten ∧
      (processChunks mode hasR st chunks).detectTail <:+
        NA ++ (chunks.map (fun c => normalizeForPromptDetection c.1)).flatten := by
  intro chunks
  induction chunks with
  | nil =>
    intro st A NA h1 h2
    simpa using ⟨h1, h2⟩
  | cons cn rest ih =>
    intro st A NA h1 h2
    obtain ⟨c, t⟩ := cn
    have step1 : (onChunk mode hasR st c t).transcript <:+ A ++ c := by
      rw [onChunk_transcript]
      by_cases hc : c.isEmpty
      · have : c = [] := by simpa using hc
        simpa [hc, this] using h1
      · rw [if_neg hc]
        exact (sliceLast_suffix ..).trans (suffix_append_right c h1)
    have step2 : (onChunk mode hasR st c t).detectTail <:+
        NA ++ normalizeForPromptDetection c := by
      rcases onChunk_detectTail mode hasR st c t with ⟨hc, he⟩ | ⟨hc, he | he⟩
      · have : c = [] := by simpa using hc
        rw [he, this]
        simpa [normalizeForPromptDetection, stripAnsi, stripAnsiFuel] using h2
      · rw [he]
        exact (sliceLast_suffix ..).trans
          (suffix_append_right (normalizeForPromptDetection c) h2)
      · rw [he]
        exact List.nil_suffix
    have := ih (onChunk mode hasR st c t) (A ++ c)
      (NA ++ normalizeForPromptDetection c) step1 step2
    simpa [processChunks, List.append_assoc] using this

/-- Length invariant: processing chunks keeps the transcript and the
detection tail within their caps. -/
theorem processChunks_length_aux (mode : CodexRunAutoAnswerMode) (hasR : Bool) :
    ∀ (chunks : List (Str × Nat)) (st : BridgeState),
      st.transcript.length ≤ MAX_TRANSCRIPT_CHARS →
      st.detectTail.length ≤ MAX_DETECTION_TAIL →
      (processChunks mode hasR st chunks).transcript.length ≤ MAX_TRANSCRIPT_CHARS ∧
      (processChunks mode hasR st chunks).detectTail.length ≤ MAX_DETECTION_TAIL := by
  intro chunks
  induction chunks with
  | nil =>
    intro st h1 h2
    exact ⟨h1, h2⟩
  | cons cn rest ih =>
    intro st h1 h2
    obtain ⟨c, t⟩ := cn
    have step1 : (onChunk mode hasR st c t).transcript.length ≤ MAX_TRANSCRIPT_CHARS := by
      rw [onChunk_transcript]
      by_cases hc : c.isEmpty
      · simpa [hc] using h1
      · rw [if_neg hc]
        exact sliceLast_length ..
    have step2 : (onChunk mode hasR st c t).detectTail.length ≤ MAX_DETECTION_TAIL := by
      rcases onChunk_detectTail mode hasR st c t with ⟨_, he⟩ | ⟨_, he | he⟩
      · rw [he]
        exact h2
      · rw [he]
        exact sliceLast_length ..
      · simp [he]
    exact ih (onChunk mode hasR st c t) step1 step2

/-! ### Claim theorems -/

/-- Decision table of the specification (§4.2), written from its words:
`off` always defers; `safe` auto-answers only `press-enter` with its
canonical safe response; `balanced` auto-answers `press-enter`, answers
`confirm` with "y" unless the prompt text matches the high-risk lexicon,
and defers `choice`; `yolo` answers `press-enter` canonically, `confirm`
with "y" and `choice` with "1". -/
def autoAnswerPolicySpec (mode : CodexRunAutoAnswerMode) (prompt : PromptMatch) :
    Option Str :=
  match mode, prompt.kind with
  | .off, _ => none
  | .safe, .pressEnter => some (prompt.safeAutoResponse.getD [])
  | .safe, .confirm => none
  | .safe, .choice => none
  | .balanced, .pressEnter => some (prompt.safeAutoResponse.getD [])
  | .balanced, .confirm =>
    if highRiskConfirmTest prompt.text then none else some (ofStr "y")
  | .balanced, .choice => none
  | .yolo, .pressEnter => some (prompt.safeAutoResponse.getD [])
  | .yolo, .confirm => some (ofStr "y")
  | .yolo, .choice => some (ofStr "1")

/-- C1: for every risk mode and every `PromptMatch`, `resolveAutoResponse`
matches the §4.2 decision table exactly: `off` defers everything; `safe`
auto-answers only `press-enter` with its canonical safe response;
`balanced` auto-answers `press-enter`, answers `confirm` with "y" unless
the prompt text matches the high-risk lexicon (then defers), and defers
`choice`; `yolo` answers `press-enter` canonically, `confirm` with "y"
and `choice` with "1". -/
theorem resolveAutoResponse_matches_table :
    ∀ (mode : CodexRunAutoAnswerMode) (prompt : PromptMatch),
      resolveAutoResponse mode prompt = autoAnswerPolicySpec mode prompt := by
  intro mode ⟨k, t, s⟩
  cases mode <;> cases k <;> rfl

/-- C10: in mode `balanced`, any `confirm` prompt whose text matches the
high-risk lexicon is deferred rather than auto-answered with "y", and the
lexicon includes — as case-insensitive whole words — the terms `rm`,
`erase`, `reset`, `revert`, `overwrite`, `prod`, `db`, `schema`,
`migration` and `key`, each exhibited here inside a benign-looking confirm
prompt text. -/
theorem balanced_high_risk_lexicon :
    (∀ t : Str, highRiskConfirmTest t = true →
      resolveAutoResponse .balanced
        { kind := .confirm, text := t, safeAutoResponse := none } = none) ∧
    ([ofStr "rm", ofStr "erase", ofStr "reset", ofStr "revert", ofStr "overwrite",
      ofStr "prod", ofStr "db", ofStr "schema", ofStr "migration", ofStr "key"].all
        (fun w => highRiskConfirmTest (ofStr "Continue with " ++ w ++ ofStr "?")) = true) := by
  constructor
  · intro t h
    simp [resolveAutoResponse, h]
  · decide

/-- Witness for C10 at the term `key`. -/
theorem balanced_high_risk_lexicon_witness :
    highRiskConfirmTest (ofStr "Continue with key?") = true ∧
    resolveAutoResponse .balanced
      { kind := .confirm, text := ofStr "Continue with key?", safeAutoResponse := none } =
      none :=
  ⟨by decide, balanced_high_risk_lexicon.1 (ofStr "Continue with key?") (by decide)⟩

/-- C2: a detection whose signature equals the previously triggered one
within 2000 ms is a no-op, and a dispatched detection records its
signature and timestamp as the new guard, so two detections with identical
signature within 2000 ms dispatch only once. -/
theorem prompt_dedup_within_2000ms :
    (∀ (st : BridgeState) (now : Nat) (p : PromptMatch),
        detectInteractivePrompt st.detectTail = some p →
        signatureOf p = st.lastPromptSignature →
        now - st.lastPromptAtMs < 2000 →
        maybeHandlePromptCheck st now = (st, none)) ∧
    (∀ (st : BridgeState) (now : Nat) (p : PromptMatch),
        st.promptHandling = false → st.promptError = none → st.stdinReady = true →
        detectInteractivePrompt st.detectTail = some p →
        ¬(signatureOf p = st.lastPromptSignature ∧ now - st.lastPromptAtMs < 2000) →
        maybeHandlePromptCheck st now =
          ({ st with lastPromptSignature := signatureOf p, lastPromptAtMs := now
                     promptHandling := true }, some p)) := by
  constructor
  · intro st now p hdet hsig hlt
    unfold maybeHandlePromptCheck
    by_cases hg : st.promptHandling || st.promptError.isSome || !st.stdinReady
    · simp [hg]
    · simp [hg, hdet, hsig, hlt]
  · intro st now p h1 h2 h3 hdet hns
    unfold maybeHandlePromptCheck
    simp [h1, h2, h3, hdet, hns]

/-- Witness for C2: a repeated confirm prompt 1400 ms after its first
trigger is not dispatched again. -/
theorem prompt_dedup_within_2000ms_witness :
    maybeHandlePromptCheck
      { initState with detectTail := ofStr "Proceed? (y/N)"
                       lastPromptSignature := ofStr "confirm:proceed? (y/n)"
                       lastPromptAtMs := 100 } 1500 =
      ({ initState with detectTail := ofStr "Proceed? (y/N)"
                        lastPromptSignature := ofStr "confirm:proceed? (y/n)"
                        lastPromptAtMs := 100 }, none) :=
  prompt_dedup_within_2000ms.1 _ 1500
    { kind := .confirm, text := ofStr "Proceed? (y/N)", safeAutoResponse := none }
    (by decide) (by decide) (by decide)

/-- C9: an attempt to start prompt handling is a no-op whenever a task is
already in flight, a fatal prompt error has been recorded, or the child
input channel is not ready; and the in-flight marker is cleared exactly by
the completion of the running task (auto answer, fatal error, or manual
resolution). -/
theorem single_prompt_task_in_flight :
    (∀ (st : BridgeState) (now : Nat), st.promptHandling = true →
        maybeHandlePromptCheck st now = (st, none)) ∧
    (∀ (st : BridgeState) (now : Nat) (e : Str), st.promptError = some e →
        maybeHandlePromptCheck st now = (st, none)) ∧
    (∀ (st : BridgeState) (now : Nat), st.stdinReady = false →
        maybeHandlePromptCheck st now = (st, none)) ∧
    (∀ (st : BridgeState) (p : PromptMatch) (r : Str) (now : Nat),
        (runAutoCore st p r now).promptHandling = false) ∧
    (∀ (st : BridgeState) (msg : Str), (recordFatal st msg).promptHandling = false) ∧
    (∀ (st : BridgeState) (p : PromptMatch) (outcome : Except Str Str) (now : Nat),
        (resolveManual st p outcome now).promptHandling = false) := by
  refine ⟨?_, ?_, ?_, ?_, ?_, ?_⟩
  · intro st now h
    unfold maybeHandlePromptCheck
    simp [h]
  · intro st now e h
    unfold maybeHandlePromptCheck
    simp [h]
  · intro st now h
    unfold maybeHandlePromptCheck
    simp [h]
  · intro st p r now
    simp [runAutoCore]
  · intro st msg
    simp [recordFatal]
  · intro st p outcome now
    rcases outcome with e | resp
    · simp [resolveManual, recordFatal]
    · simp only [resolveManual]

/-- Witness for C9: with a task in flight, the check is a no-op on a
concrete state holding a visible prompt. -/
theorem single_prompt_task_in_flight_witness :
    maybeHandlePromptCheck
      { initState with detectTail := ofStr "Proceed? (y/N)", promptHandling := true } 0 =
      ({ initState with detectTail := ofStr "Proceed? (y/N)", promptHandling := true },
       none) :=
  single_prompt_task_in_flight.1 _ 0 rfl

/-- C3: a policy deferral with no manual responder records the fatal
prompt error and requests cancellation of the underlying process; a
responder failure does the same with the responder error; and a recorded
fatal prompt error makes the session reject with that error instead of
returning a `SessionResult`, whatever the exit descriptor — including a
clean exit with code 0. -/
theorem fatal_prompt_error_precedence :
    (∀ (mode : CodexRunAutoAnswerMode) (st : BridgeState) (p : PromptMatch) (now : Nat),
        resolveAutoResponse mode p = none →
        (dispatchPrompt mode false st p now).promptError =
          some (noResponderMsg p.text) ∧
        (dispatchPrompt mode false st p now).cancelled = true) ∧
    (∀ (st : BridgeState) (p : PromptMatch) (e : Str) (now : Nat),
        (resolveManual st p (.error e) now).promptError = some e ∧
        (resolveManual st p (.error e) now).cancelled = true) ∧
    (∀ (st : BridgeState) (exit : RunExit) (runId : Str) (pid : Option Nat)
        (pollSamples : Nat) (logFilePath : Str) (e : Str),
        st.promptError = some e →
        finishSession st exit runId pid pollSamples logFilePath = .error e) := by
  refine ⟨?_, ?_, ?_⟩
  · intro mode st p now h
    simp [dispatchPrompt, h, recordFatal]
  · intro st p e now
    simp [resolveManual, recordFatal, flushSuppressedOutput]
  · intro st exit runId pid pollSamples logFilePath e h
    simp [finishSession, h]

/-- Witness for C3: a deferred confirm prompt in mode `off` with no
responder records the fatal error and requests cancellation, and a session
whose state carries a fatal prompt error rejects with it even though the
process exited cleanly with code 0. -/
theorem fatal_prompt_error_precedence_witness :
    ((dispatchPrompt .off false initState
        { kind := .confirm, text := ofStr "Proceed? (y/N)", safeAutoResponse := none }
        7).promptError = some (noResponderMsg (ofStr "Proceed? (y/N)")) ∧
     (dispatchPrompt .off false initState
        { kind := .confirm, text := ofStr "Proceed? (y/N)", safeAutoResponse := none }
        7).cancelled = true) ∧
    finishSession { initState with promptError := some (ofStr "boom") }
      { reason := ofStr "exit", exitCode := some 0 } (ofStr "run-1") (some 42) 3
      (ofStr "run.log") = .error (ofStr "boom") :=
  ⟨fatal_prompt_error_precedence.1 .off initState
      { kind := .confirm, text := ofStr "Proceed? (y/N)", safeAutoResponse := none }
      7 rfl,
   fatal_prompt_error_precedence.2.2 _
      { reason := ofStr "exit", exitCode := some 0 } (ofStr "run-1") (some 42) 3
      (ofStr "run.log") (ofStr "boom") rfl⟩

/-- C8: when the policy returns a response for a dispatched prompt, the
bridge writes the response followed by a trailing newline to the child
input, resets the detection tail to empty, and appends exactly one
`PromptEvent` with source `auto` whose kind, text and response match; for
any prompt produced by the classifier the policy response never ends in a
newline, so the written data is exactly the response plus one newline. -/
theorem auto_answer_effects :
    (∀ (mode : CodexRunAutoAnswerMode) (hasR : Bool) (st : BridgeState)
        (p : PromptMatch) (r : Str) (now : Nat),
        resolveAutoResponse mode p = some r →
        dispatchPrompt mode hasR st p now =
          { st with detectTail := []
                    promptEvents := st.promptEvents ++
                      [{ kind := p.kind, text := p.text, source := .auto
                         response := r, atMs := now }]
                    trace := st.trace ++
                      [SessionEff.stdinWrite (ensureTrailingNewline r),
                       SessionEff.eventAppended
                         { kind := p.kind, text := p.text, source := .auto
                           response := r, atMs := now }]
                    promptHandling := false }) ∧
    (∀ (rawTail : Str) (p : PromptMatch) (mode : CodexRunAutoAnswerMode) (r : Str),
        detectInteractivePrompt rawTail = some p →
        resolveAutoResponse mode p = some r →
        ensureTrailingNewline r = r ++ ['\n']) := by
  constructor
  · intro mode hasR st p r now h
    simp [dispatchPrompt, h, runAutoCore]
  · intro rawTail p mode r hdet hres
    have hsafe := detect_safeAutoResponse rawTail p hdet
    have hr : r = [] ∨ r = ofStr "y" ∨ r = ofStr "1" := by
      rcases p with ⟨k, t, s⟩
      rcases hsafe with hs | hs <;> subst hs <;>
        cases mode <;> cases k <;> simp_all [resolveAutoResponse]
    rcases hr with h | h | h <;> subst h <;> rfl

/-- Witness for C8: in mode `yolo` a dispatched choice prompt is answered
with "1" plus a newline, the detection tail is reset, and one auto
`PromptEvent` is appended. -/
theorem auto_answer_effects_witness :
    dispatchPrompt .yolo true
      { initState with detectTail := ofStr "Enter choice:" }
      { kind := .choice, text := ofStr "Enter choice:", safeAutoResponse := none }
      11 =
      { initState with
          detectTail := []
          promptEvents :=
            [{ kind := .choice, text := ofStr "Enter choice:", source := .auto
               response := ofStr "1", atMs := 11 }]
          trace :=
            [SessionEff.stdinWrite (ensureTrailingNewline (ofStr "1")),
             SessionEff.eventAppended
               { kind := .choice, text := ofStr "Enter choice:", source := .auto
                 response := ofStr "1", atMs := 11 }]
          promptHandling := false } := by
  rw [auto_answer_effects.1 .yolo true
    { initState with detectTail := ofStr "Enter choice:" }
    { kind := .choice, text := ofStr "Enter choice:", safeAutoResponse := none }
    (ofStr "1") 11 rfl]
  rfl

/-- C6: when a manual prompt resolves — on responder success or failure —
suppression ends and the buffered output is flushed to the observer
exactly once as a single batch; chunks that arrive during suppression are
appended to the buffer in arrival order; and on the success path the flush
comes only after the resolving `manual` `PromptEvent` has been appended;
after the flush the buffer is empty. -/
theorem manual_resolution_flush :
    (∀ (mode : CodexRunAutoAnswerMode) (hasR : Bool) (st : BridgeState)
        (chunk : Str) (now : Nat), st.suppressUserOutput = true →
        (onChunk mode hasR st chunk now).suppressedOutput =
          st.suppressedOutput ++ chunk) ∧
    (∀ (st : BridgeState) (p : PromptMatch) (resp : Str) (now : Nat),
        (resolveManual st p (.ok resp) now).suppressUserOutput = false ∧
        (resolveManual st p (.ok resp) now).suppressedOutput = [] ∧
        (resolveManual st p (.ok resp) now).trace =
          st.trace ++
            [SessionEff.stdinWrite (ensureTrailingNewline resp),
             SessionEff.eventAppended
               { kind := p.kind, text := p.text, source := .manual
                 response := resp, atMs := now }] ++
            (if st.suppressedOutput.isEmpty then []
             else [SessionEff.observerEmit st.suppressedOutput])) ∧
    (∀ (st : BridgeState) (p : PromptMatch) (e : Str) (now : Nat),
        (resolveManual st p (.error e) now).suppressUserOutput = false ∧
        (resolveManual st p (.error e) now).suppressedOutput = [] ∧
        (resolveManual st p (.error e) now).trace =
          st.trace ++
            (if st.suppressedOutput.isEmpty then []
             else [SessionEff.observerEmit st.suppressedOutput]) ++
            [SessionEff.errorRecorded e, SessionEff.cancelRequested]) := by
  refine ⟨?_, ?_, ?_⟩
  · intro mode hasR st chunk now hs
    exact onChunk_suppressedOutput mode hasR st chunk now hs
  · intro st p resp now
    simp only [resolveManual, flushSuppressedOutput]
    by_cases hb : st.suppressedOutput.isEmpty
    · have hb' : st.suppressedOutput = [] := by simpa using hb
      simp [hb, hb']
    · simp [hb]
  · intro st p e now
    simp only [resolveManual, flushSuppressedOutput, recordFatal]
    by_cases hb : st.suppressedOutput.isEmpty
    · have hb' : st.suppressedOutput = [] := by simpa using hb
      simp [hb, hb']
    · simp [hb]

/-- Witness for C6: a concrete chunk arriving during suppression is
appended to the buffer. -/
theorem manual_resolution_flush_witness :
    (onChunk .off true
      { initState with suppressUserOutput := true, promptHandling := true
                       suppressedOutput := ofStr "early " }
      (ofStr "late") 5).suppressedOutput = ofStr "early late" :=
  manual_resolution_flush.1 .off true
    { initState with suppressUserOutput := true, promptHandling := true
                     suppressedOutput := ofStr "early " }
    (ofStr "late") 5 rfl

/-- C4 (amended): after processing any sequence of sanitized output chunks
from the initial state, the transcript has length at most
`MAX_TRANSCRIPT_CHARS` and is a suffix of the concatenation of all output
received, and the detection tail has length at most `MAX_DETECTION_TAIL`
and is a suffix of the concatenation of the per-chunk normalized
(control-stripped, carriage-return-converted) output — not of the raw
output itself. -/
theorem transcript_and_tail_invariants (mode : CodexRunAutoAnswerMode) (hasR : Bool)
    (chunks : List (Str × Nat)) :
    (processChunks mode hasR initState chunks).transcript.length ≤ MAX_TRANSCRIPT_CHARS ∧
    (processChunks mode hasR initState chunks).transcript <:+
      (chunks.map Prod.fst).flatten ∧
    (processChunks mode hasR initState chunks).detectTail.length ≤ MAX_DETECTION_TAIL ∧
    (processChunks mode hasR initState chunks).detectTail <:+
      (chunks.map (fun c => normalizeForPromptDetection c.1)).flatten := by
  have hs := processChunks_suffix_aux mode hasR chunks initState [] []
    (by simp [initState]) (by simp [initState])
  have hl := processChunks_length_aux mode hasR chunks initState
    (by simp [initState, MAX_TRANSCRIPT_CHARS]) (by simp [initState, MAX_DETECTION_TAIL])
  simp only [List.nil_append] at hs
  exact ⟨hl.1, hs.1, hl.2, hs.2⟩

/-- Counterexample to C4 as stated: after the single output chunk
`"a\rb"`, the detection tail is `"a\nb"` (the carriage return was
normalized to a newline) and is not a suffix of the concatenation of the
output received. -/
theorem detectTail_not_suffix_counterexample :
    (processChunks CodexRunAutoAnswerMode.off false initState
        [(ofStr "a\rb", 0)]).detectTail = ofStr "a\nb" ∧
    ¬ ((processChunks CodexRunAutoAnswerMode.off false initState
        [(ofStr "a\rb", 0)]).detectTail <:+
        ([(ofStr "a\rb", 0)].map Prod.fst).flatten) := by
  constructor
  · decide
  · decide

/-- C7: whenever the detection window matches the press-enter phrase, the
classifier returns kind `press-enter` with the empty canonical safe
response, regardless of any confirm or choice cues also present, because
the press-enter check is applied first. -/
theorem press_enter_priority (rawTail : Str)
    (h : pressEnterTest (windowTail rawTail) = true) :
    detectInteractivePrompt rawTail =
      some { kind := .pressEnter
             text := ((windowLines rawTail).getLast?).getD (windowTail rawTail)
             safeAutoResponse := some [] } := by
  unfold detectInteractivePrompt
  by_cases he : (windowLines rawTail).isEmpty
  · exfalso
    have h0 : windowLines rawTail = [] := by simpa using he
    rw [windowTail, h0] at h
    exact absurd h (by decide)
  · simp [he, h]

/-- Witness for C7: a window holding both the press-enter phrase and a
bracketed confirm cue still classifies as `press-enter` with the empty
canonical response. -/
theorem press_enter_priority_witness :
    detectInteractivePrompt (ofStr "Press Enter to continue? (y/N)") =
      some { kind := .pressEnter, text := ofStr "Press Enter to continue? (y/N)"
             safeAutoResponse := some [] } :=
  (press_enter_priority (ofStr "Press Enter to continue? (y/N)") (by decide)).trans
    (by decide)

/-- Claim-worded trailing alternative of the confirm condition: a
confirmation verb followed by optional whitespace, then an actual
trailing question mark or colon, then only whitespace to the end of the
window. -/
def confirmTrailStrictAt (l : Str) : Bool :=
  verbM l (fun r =>
    starM isJsWs r (fun r2 =>
      match r2 with
      | c :: cs => (c == '?' || c == ':') && tailWsEnd cs
      | [] => false))

/-- Search form of the claim-worded trailing alternative. -/
def confirmTrailStrictTest (l : Str) : Bool :=
  existsAt confirmTrailStrictAt (toLowerStr l)

/-- Claim-worded confirm condition of C5: a confirmation verb followed
either by a bracketed yes/no indicator or by a trailing question mark or
colon at the end of the window. -/
def confirmClaimCondition (tl : Str) : Bool :=
  confirmBracketTest tl || confirmTrailStrictTest tl

/-- Counterexample to C5 as stated: the window `"please continue"` has no
bracketed yes/no indicator and no trailing question mark or colon, yet
the classifier returns kind `confirm`, because the question mark or colon
in the source pattern is optional and a verb ending the window suffices. -/
theorem confirm_detection_counterexample :
    (detectInteractivePrompt (ofStr "please continue")).map PromptMatch.kind =
      some PromptKind.confirm ∧
    confirmClaimCondition (windowTail (ofStr "please continue")) = false ∧
    pressEnterTest (windowTail (ofStr "please continue")) = false := by
  refine ⟨by decide, by decide, by decide⟩

/-- C5 (amended): the classifier returns kind `confirm` exactly when the
detection window does not match press-enter and either contains a
confirmation verb followed within 120 non-period, non-newline characters
by a bracketed yes/no indicator, or contains a confirmation verb followed
by optional whitespace and an optional question mark or colon reaching
the end of the window; in particular `"Proceed? (y/N)"` classifies as
`confirm`. -/
theorem confirm_detection_characterization :
    (∀ rawTail : Str,
        (detectInteractivePrompt rawTail).map PromptMatch.kind =
            some PromptKind.confirm ↔
          pressEnterTest (windowTail rawTail) = false ∧
          (confirmBracketTest (windowTail rawTail) ||
            confirmTrailTest (windowTail rawTail)) = true) ∧
    detectInteractivePrompt (ofStr "Proceed? (y/N)") =
      some { kind := .confirm, text := ofStr "Proceed? (y/N)"
             safeAutoResponse := none } := by
  constructor
  · intro rawTail
    unfold detectInteractivePrompt
    by_cases he : (windowLines rawTail).isEmpty
    · have h0 : windowLines rawTail = [] := by simpa using he
      rw [windowTail, h0]
      simp [he]
      decide
    · by_cases hp : pressEnterTest (windowTail rawTail)
      · simp [he, hp]
      · by_cases hcf : confirmBracketTest (windowTail rawTail) ||
          confirmTrailTest (windowTail rawTail)
        · simp [he, hp, hcf]
        · by_cases hch : choiceTest (windowTail rawTail) <;>
            simp [he, hp, hcf, hch]
  · decide

end CodexRunPty
